import Mathlib

/-!
Verification of the libdjinterop specification against a shallow embedding of
the repository's sources (engine-library database handling, schema versions,
performance data, and crate hierarchy).

C++ `int` components are embedded as `Int` (all operations involved are
comparisons and small arithmetic, far from any overflow), `double` fields as
`ℚ` (the computations at issue are exact field arithmetic), and fallible
operations return `Except`.
-/

namespace Djinterop

/-- The `schema_version` struct from
`src/djinterop/enginelibrary/schema_version.hpp` (lines 30-35): a
(major, minor, patch) triple of `int`s. -/
structure SchemaVersion where
  maj : Int
  min : Int
  pat : Int
deriving DecidableEq

/-- `version_firmware_1_0_0` constant (schema_version.hpp line 37). -/
def version_firmware_1_0_0 : SchemaVersion := ⟨1, 6, 0⟩

/-- `version_firmware_1_0_3` constant (schema_version.hpp line 38). -/
def version_firmware_1_0_3 : SchemaVersion := ⟨1, 7, 1⟩

/-- `version_latest` constant (schema_version.hpp line 39). -/
def version_latest : SchemaVersion := version_firmware_1_0_3

/-- `operator ==` on `schema_version` (schema_version.hpp lines 70-73). -/
def schema_version_eq (a b : SchemaVersion) : Bool :=
  decide (a.maj = b.maj) && decide (a.min = b.min) && decide (a.pat = b.pat)

/-- `operator !=` on `schema_version` (schema_version.hpp lines 75-78). -/
def schema_version_ne (a b : SchemaVersion) : Bool :=
  !(decide (a.maj = b.maj) && decide (a.min = b.min) && decide (a.pat = b.pat))

/-- `operator >=` on `schema_version` (schema_version.hpp lines 80-87). -/
def schema_version_ge (a b : SchemaVersion) : Bool :=
  if a.maj ≠ b.maj then decide (a.maj > b.maj)
  else if a.min ≠ b.min then decide (a.min > b.min)
  else decide (a.pat ≥ b.pat)

/-- `operator >` on `schema_version` (schema_version.hpp lines 89-96). -/
def schema_version_gt (a b : SchemaVersion) : Bool :=
  if a.maj ≠ b.maj then decide (a.maj > b.maj)
  else if a.min ≠ b.min then decide (a.min > b.min)
  else decide (a.pat > b.pat)

/-- `operator <=` on `schema_version` (schema_version.hpp lines 98-105). -/
def schema_version_le (a b : SchemaVersion) : Bool :=
  if a.maj ≠ b.maj then decide (a.maj < b.maj)
  else if a.min ≠ b.min then decide (a.min < b.min)
  else decide (a.pat ≤ b.pat)

/-- `operator <` on `schema_version` (schema_version.hpp lines 107-114). -/
def schema_version_lt (a b : SchemaVersion) : Bool :=
  if a.maj ≠ b.maj then decide (a.maj < b.maj)
  else if a.min ≠ b.min then decide (a.min < b.min)
  else decide (a.pat < b.pat)

/-- The lexicographic strict order on (major, minor, patch) triples, written
directly from the spec's words ("totally ordered lexicographically on the
triple"). -/
def lexLt (a b : SchemaVersion) : Prop :=
  a.maj < b.maj ∨ (a.maj = b.maj ∧ (a.min < b.min ∨ (a.min = b.min ∧ a.pat < b.pat)))

/-- Modelled from the spec: `is_supported` is declared in the (absent)
`schema.hpp`; per spec §3 and §4.1 a version is supported exactly when it is
one of the enumerated known versions, which `schema_version.hpp` (present in
the sources, lines 37-38) enumerates as 1.6.0 and 1.7.1. -/
def is_supported (v : SchemaVersion) : Bool :=
  schema_version_eq v version_firmware_1_0_0 ||
  schema_version_eq v version_firmware_1_0_3

/-- Error taxonomy of the library (spec §7; `database_not_found` from
`include/djinterop/database.hpp` lines 43-50, `unsupported_database_version`
and `database_inconsistency` from schema_version.hpp lines 41-63,
`std::runtime_error` used at database.cpp line 102, `CycleDetected` from
spec §7). -/
inductive DbError where
  | databaseNotFound (msg : String)
  | unsupportedVersion (v : SchemaVersion)
  | databaseInconsistency (msg : String)
  | runtimeError (msg : String)
  | cycleDetected
deriving DecidableEq

/-- The value handed back to callers by `database` (database.cpp lines 28-56):
the uuid and schema version read from the music store's Information row.
Directory paths are determined by the directory argument and elided. -/
structure Database where
  uuid : String
  version : SchemaVersion
deriving DecidableEq

/-- The on-disk state of one library directory: whether the directory itself
exists, the music store `m.db` (present iff its Information row is, carrying
uuid and schema version, per spec §6 "each music store contains exactly one
information row"), and the performance store `p.db`. -/
structure World where
  dirExists : Bool
  mdb : Option (String × SchemaVersion)
  pdbExists : Bool
deriving DecidableEq

/-- Environment of one `create_database` call: outcome of the `mkdir` system
call (database.cpp line 100), `errno` after a failed `mkdir`, the uuid
generated for the new store, and the outcomes of the two schema
verifications. -/
structure Env where
  mkdirOk : Bool
  mkdirErrno : Int
  uuid : String
  musicSchemaOk : Bool
  perfSchemaOk : Bool
deriving DecidableEq

/-- POSIX `EEXIST` errno value. -/
def EEXIST : Int := 17

/-- Observable side effects of `create_database`, in the order they are
performed, used to settle ordering claims. -/
inductive Effect where
  | mkdirCreated
  | createMusicSchema (v : SchemaVersion)
  | verifyMusicSchema
  | createPerformanceSchema (v : SchemaVersion)
  | verifyPerformanceSchema
  | constructHandle
deriving DecidableEq

/-- The schema-creation tail of `create_database` (database.cpp lines
107-125): create and verify the music schema, then create and verify the
performance schema, then construct the `database` handle (whose constructor,
lines 30-41, reads uuid and version back from the Information row).
`create_music_schema` writing the Information row is modelled from the spec
(§6): the row carries the generated uuid and the requested version. -/
def createSchemas (env : Env) (w : World) (version : SchemaVersion)
    (tr : List Effect) : Except DbError Database × World × List Effect :=
  let w1 : World := { w with mdb := some (env.uuid, version) }
  let tr1 := tr ++ [Effect.createMusicSchema version, Effect.verifyMusicSchema]
  if ¬ env.musicSchemaOk then
    (Except.error (DbError.databaseInconsistency "music schema verification failed"),
      w1, tr1)
  else
    let w2 : World := { w1 with pdbExists := true }
    let tr2 := tr1 ++
      [Effect.createPerformanceSchema version, Effect.verifyPerformanceSchema]
    if ¬ env.perfSchemaOk then
      (Except.error
        (DbError.databaseInconsistency "performance schema verification failed"),
        w2, tr2)
    else
      match w2.mdb with
      | some (u, ver) => (Except.ok ⟨u, ver⟩, w2, tr2 ++ [Effect.constructHandle])
      | none =>
          (Except.error (DbError.databaseInconsistency "missing information row"),
            w2, tr2)

/-- `create_database` (database.cpp lines 86-125).  The version check comes
first (lines 89-93); then the directory check (lines 96-105), which throws the
runtime error when `mkdir` returns 0 *or* fails with `errno == EEXIST`, and
otherwise falls through to schema creation; then the two stores are created
and verified (lines 107-121) and the handle constructed (line 123). -/
def create_database (env : Env) (w : World) (version : SchemaVersion) :
    Except DbError Database × World × List Effect :=
  if ¬ is_supported version then
    (Except.error (DbError.unsupportedVersion version), w, [])
  else if w.dirExists then
    createSchemas env w version []
  else if env.mkdirOk then
    (Except.error
      (DbError.runtimeError "Failed to create directory to hold new database"),
      { w with dirExists := true }, [Effect.mkdirCreated])
  else if env.mkdirErrno = EEXIST then
    (Except.error
      (DbError.runtimeError "Failed to create directory to hold new database"),
      w, [])
  else
    createSchemas env w version []

/-- `database::impl::exists` (database.cpp lines 43-49): both `m.db` and
`p.db` must be present. -/
def database_exists (w : World) : Bool :=
  w.mdb.isSome && w.pdbExists

/-- Modelled from the spec: the open-time check that throws
`database_not_found` lives in enginelibrary sources absent from src/ (only
`exists()`, database.cpp lines 43-49, and the `database_not_found` class,
include/djinterop/database.hpp lines 43-50, are present).  Per spec §4.3,
`open(path)` fails with `DatabaseNotFound` if required files are absent and
otherwise detects the stored schema version by reading the Information row
(the read itself is database.cpp lines 35-40). -/
def open_database (w : World) : Except DbError Database :=
  if database_exists w then
    match w.mdb with
    | some (u, ver) => Except.ok ⟨u, ver⟩
    | none => Except.error (DbError.databaseInconsistency "missing information row")
  else
    Except.error (DbError.databaseNotFound "Database files not found")

/-- A call environment in which `mkdir` fails with `errno = EACCES` (13),
used for the directory-creation claims. -/
def env_mkdirFails : Env := ⟨false, 13, "u", true, true⟩

/-- A library directory that does not exist yet (no directory, no store
files). -/
def w_noDir : World := ⟨false, none, false⟩

end Djinterop

namespace Djinterop

/-- C1: opening a directory in which at least one of `m.db` and `p.db` is
absent fails with `DatabaseNotFound`; when both are present, open succeeds
and detects the stored schema version (the uuid/version of the Information
row). -/
theorem open_database_requires_both_stores (w : World) :
    ((w.mdb = none ∨ w.pdbExists = false) →
      open_database w =
        Except.error (DbError.databaseNotFound "Database files not found")) ∧
    (∀ u ver, w.mdb = some (u, ver) → w.pdbExists = true →
      open_database w = Except.ok ⟨u, ver⟩) := by
  constructor
  · rintro (hm | hp)
    · simp [open_database, database_exists, hm]
    · simp [open_database, database_exists, hp]
  · intro u ver hm hp
    simp [open_database, database_exists, hm, hp]

/-- Witness for C1: a directory with only `p.db` fails with
`DatabaseNotFound`; a directory with both stores opens and yields the stored
version. -/
theorem open_database_requires_both_stores_witness :
    open_database ⟨true, none, true⟩ =
      Except.error (DbError.databaseNotFound "Database files not found") ∧
    open_database ⟨true, some ("u", version_firmware_1_0_3), true⟩ =
      Except.ok ⟨"u", version_firmware_1_0_3⟩ :=
  ⟨(open_database_requires_both_stores ⟨true, none, true⟩).1 (Or.inl rfl),
   (open_database_requires_both_stores ⟨true, some ("u", version_firmware_1_0_3),
      true⟩).2 "u" version_firmware_1_0_3 rfl rfl⟩

/-- C2: for every version outside the known set, `create_database` fails with
`UnsupportedVersion`, leaves the file system exactly as it was, and performs
no file or directory effect at all (the check precedes any creation). -/
theorem create_database_unsupported (v : SchemaVersion) (env : Env) (w : World)
    (h : is_supported v = false) :
    create_database env w v =
      (Except.error (DbError.unsupportedVersion v), w, []) := by
  simp [create_database, h]

/-- Witness for C2: version 1.6.5 is not a known version and is rejected with
no effects. -/
theorem create_database_unsupported_witness :
    create_database env_mkdirFails w_noDir ⟨1, 6, 5⟩ =
      (Except.error (DbError.unsupportedVersion ⟨1, 6, 5⟩), w_noDir, []) :=
  create_database_unsupported ⟨1, 6, 5⟩ env_mkdirFails w_noDir (by decide)

/-- C8: with a supported version (and the target directory in place),
`create_database` creates the music store, verifies it, creates the
performance store and verifies it, in that order, before any handle is
constructed; failure of either verification makes the call fail with no
handle returned. -/
theorem create_database_verifies_before_handle (env : Env) (w : World)
    (v : SchemaVersion) (hv : is_supported v = true) (hd : w.dirExists = true) :
    (env.musicSchemaOk = false →
      (create_database env w v).1 =
        Except.error (DbError.databaseInconsistency
          "music schema verification failed") ∧
      (create_database env w v).2.2 =
        [Effect.createMusicSchema v, Effect.verifyMusicSchema]) ∧
    (env.musicSchemaOk = true → env.perfSchemaOk = false →
      (create_database env w v).1 =
        Except.error (DbError.databaseInconsistency
          "performance schema verification failed") ∧
      (create_database env w v).2.2 =
        [Effect.createMusicSchema v, Effect.verifyMusicSchema,
         Effect.createPerformanceSchema v, Effect.verifyPerformanceSchema]) ∧
    (env.musicSchemaOk = true → env.perfSchemaOk = true →
      (create_database env w v).1 = Except.ok ⟨env.uuid, v⟩ ∧
      (create_database env w v).2.2 =
        [Effect.createMusicSchema v, Effect.verifyMusicSchema,
         Effect.createPerformanceSchema v, Effect.verifyPerformanceSchema,
         Effect.constructHandle]) := by
  refine ⟨fun hm => ?_, fun hm hp => ?_, fun hm hp => ?_⟩ <;>
    simp [create_database, createSchemas, hv, hd, hm]
  · simp [hp]
  · simp [hp]

/-- Witness for C8: with a failing performance-store verification, creation
fails after exactly the four schema effects, with no handle constructed. -/
theorem create_database_verifies_before_handle_witness :
    (create_database ⟨false, 13, "u", true, false⟩ ⟨true, none, false⟩
        version_firmware_1_0_0).1 =
      Except.error (DbError.databaseInconsistency
        "performance schema verification failed") ∧
    (create_database ⟨false, 13, "u", true, false⟩ ⟨true, none, false⟩
        version_firmware_1_0_0).2.2 =
      [Effect.createMusicSchema version_firmware_1_0_0, Effect.verifyMusicSchema,
       Effect.createPerformanceSchema version_firmware_1_0_0,
       Effect.verifyPerformanceSchema] :=
  (create_database_verifies_before_handle ⟨false, 13, "u", true, false⟩
    ⟨true, none, false⟩ version_firmware_1_0_0 (by decide) rfl).2.1 rfl rfl

/-- C9: for every known version `v`, creating a database with version `v`
stores exactly `v` in the Information row of the music store, the handle
returned by `create_database` carries exactly `v`, and re-opening the
resulting directory reads back exactly `v`. -/
theorem create_then_detect_roundtrip (v : SchemaVersion) (env : Env) (w : World)
    (hv : is_supported v = true) (hd : w.dirExists = true)
    (hm : env.musicSchemaOk = true) (hp : env.perfSchemaOk = true) :
    (create_database env w v).1 = Except.ok ⟨env.uuid, v⟩ ∧
    ((create_database env w v).2.1).mdb = some (env.uuid, v) ∧
    open_database (create_database env w v).2.1 = Except.ok ⟨env.uuid, v⟩ := by
  simp [create_database, createSchemas, hv, hd, hm, hp, open_database,
    database_exists]

/-- Witness for C9: the round trip at known version 1.7.1. -/
theorem create_then_detect_roundtrip_witness :
    open_database (create_database ⟨false, 13, "id", true, true⟩
        ⟨true, none, false⟩ version_firmware_1_0_3).2.1 =
      Except.ok ⟨"id", version_firmware_1_0_3⟩ :=
  (create_then_detect_roundtrip version_firmware_1_0_3
    ⟨false, 13, "id", true, true⟩ ⟨true, none, false⟩
    (by decide) rfl rfl rfl).2.2

/-- Counterexample for C10: with a supported version, a target directory that
does not exist, and `mkdir` failing with `errno = EACCES` (neither success nor
`EEXIST`), `create_database` still continues to schema creation (and even
returns successfully) — refuting "it continues to schema creation only when
the target directory already existed before the call". -/
theorem create_database_mkdir_counterexample :
    w_noDir.dirExists = false ∧
    (create_database env_mkdirFails w_noDir version_firmware_1_0_3).2.2 =
      [Effect.createMusicSchema version_firmware_1_0_3, Effect.verifyMusicSchema,
       Effect.createPerformanceSchema version_firmware_1_0_3,
       Effect.verifyPerformanceSchema, Effect.constructHandle] ∧
    (create_database env_mkdirFails w_noDir version_firmware_1_0_3).1 =
      Except.ok ⟨"u", version_firmware_1_0_3⟩ := by
  refine ⟨rfl, ?_, ?_⟩ <;>
    simp [create_database, createSchemas, env_mkdirFails, w_noDir, EEXIST,
      is_supported, schema_version_eq, version_firmware_1_0_0,
      version_firmware_1_0_3]

/-- C10 as amended: with a supported version and a missing target directory,
`create_database` throws the generic runtime error ("Failed to create
directory to hold new database") both when `mkdir` succeeds and when it fails
with `errno = EEXIST`; it continues to schema creation when `mkdir` fails
with any other errno; in particular it never returns successfully after
itself creating the directory. -/
theorem create_database_mkdir_amended (env : Env) (w : World)
    (v : SchemaVersion) (hv : is_supported v = true)
    (hd : w.dirExists = false) :
    ((env.mkdirOk = true ∨ env.mkdirErrno = EEXIST) →
      (create_database env w v).1 =
        Except.error (DbError.runtimeError
          "Failed to create directory to hold new database")) ∧
    (env.mkdirOk = false → env.mkdirErrno ≠ EEXIST →
      ((create_database env w v).2.2).head? =
        some (Effect.createMusicSchema v)) := by
  constructor
  · rintro (hk | he)
    · simp [create_database, hv, hd, hk]
    · by_cases hk : env.mkdirOk <;> simp [create_database, hv, hd, hk, he]
  · intro hk he
    by_cases hm : env.musicSchemaOk <;> by_cases hp : env.perfSchemaOk <;>
      simp [create_database, createSchemas, hv, hd, hk, he, hm, hp]

/-- Witness for C10's amended claim: `mkdir` success yields the runtime
error; `mkdir` failure with `EACCES` proceeds to music-schema creation. -/
theorem create_database_mkdir_amended_witness :
    (create_database ⟨true, 0, "u", true, true⟩ w_noDir
        version_firmware_1_0_3).1 =
      Except.error (DbError.runtimeError
        "Failed to create directory to hold new database") ∧
    ((create_database env_mkdirFails w_noDir version_firmware_1_0_3).2.2).head? =
      some (Effect.createMusicSchema version_firmware_1_0_3) :=
  ⟨(create_database_mkdir_amended ⟨true, 0, "u", true, true⟩ w_noDir
      version_firmware_1_0_3 (by decide) rfl).1 (Or.inl rfl),
   (create_database_mkdir_amended env_mkdirFails w_noDir
      version_firmware_1_0_3 (by decide) rfl).2 rfl (by decide)⟩

end Djinterop

namespace Djinterop

/-- `track_beat_grid` (performance_data.hpp lines 293-321): two anchor
points, each a beat index (`int`) and a sample offset (`double`, embedded as
`ℚ`). -/
structure TrackBeatGrid where
  first_beat_index : Int
  first_beat_sample_offset : ℚ
  last_beat_index : Int
  last_beat_sample_offset : ℚ
deriving DecidableEq

/-- Modelled from the spec: `pad_colour.hpp` is absent from the sources; per
spec §3 a slot colour is an rgb(a) value.  Only its default matters to the
claims. -/
structure PadColour where
  r : Nat
  g : Nat
  b : Nat
  a : Nat
deriving DecidableEq

/-- The value-initialised `pad_colour` used by the default constructors. -/
def defaultPadColour : PadColour := ⟨0, 0, 0, 0⟩

/-- `track_hot_cue_point` (performance_data.hpp lines 326-354). -/
structure TrackHotCuePoint where
  is_set : Bool
  label : String
  sample_offset : ℚ
  colour : PadColour
deriving DecidableEq

/-- Default-constructed `track_hot_cue_point` (performance_data.hpp lines
331-336): unset, empty label, offset -1, default colour. -/
def defaultHotCue : TrackHotCuePoint := ⟨false, "", -1, defaultPadColour⟩

/-- `track_loop` (performance_data.hpp lines 359-396). -/
structure TrackLoop where
  is_start_set : Bool
  is_end_set : Bool
  label : String
  start_sample_offset : ℚ
  end_sample_offset : ℚ
  colour : PadColour
deriving DecidableEq

/-- Default-constructed `track_loop` (performance_data.hpp lines 364-371):
both flags unset, empty label, offsets -1, default colour. -/
def defaultLoop : TrackLoop := ⟨false, false, "", -1, -1, defaultPadColour⟩

/-- `track_loop::is_set` (performance_data.hpp line 395). -/
def TrackLoop.loop_is_set (l : TrackLoop) : Bool :=
  l.is_start_set && l.is_end_set

/-- The fields of the `performance_data` aggregate (performance_data.hpp
lines 404-592) that the claims touch. -/
structure PerformanceData where
  track_id : Int
  sample_rate : ℚ
  total_samples : Int
  average_loudness : ℚ
  default_beat_grid : TrackBeatGrid
  adjusted_beat_grid : TrackBeatGrid
  hot_cues : List TrackHotCuePoint
  loops : List TrackLoop
deriving DecidableEq

/-- `performance_data::bpm` (performance_data.hpp lines 530-542): returns 0
when the adjusted grid's beat-index span is 0, else
`sample_rate * 60 * index_span / sample_offset_span`. -/
def PerformanceData.bpm (pd : PerformanceData) : ℚ :=
  if pd.adjusted_beat_grid.last_beat_index -
      pd.adjusted_beat_grid.first_beat_index = 0 then 0
  else
    pd.sample_rate * 60 *
      ((pd.adjusted_beat_grid.last_beat_index -
        pd.adjusted_beat_grid.first_beat_index : Int) : ℚ) /
      (pd.adjusted_beat_grid.last_beat_sample_offset -
       pd.adjusted_beat_grid.first_beat_sample_offset)

/-- The BPM formula as the spec states it (§3): `sample_rate * 60 *
(last_index - first_index) / (last_offset - first_offset)` over the adjusted
grid, defined as 0 when the index span is 0. -/
def bpm_spec (pd : PerformanceData) : ℚ :=
  let g := pd.adjusted_beat_grid
  if g.last_beat_index - g.first_beat_index = 0 then 0
  else pd.sample_rate * 60 * ((g.last_beat_index - g.first_beat_index : Int) : ℚ) /
    (g.last_beat_sample_offset - g.first_beat_sample_offset)

/-- The BPM implied by a beat grid at a given sample rate (same formula as
`performance_data::bpm`, parameterised by the grid). -/
def grid_bpm (sample_rate : ℚ) (g : TrackBeatGrid) : ℚ :=
  if g.last_beat_index - g.first_beat_index = 0 then 0
  else sample_rate * 60 * ((g.last_beat_index - g.first_beat_index : Int) : ℚ) /
    (g.last_beat_sample_offset - g.first_beat_sample_offset)

/-- The beat spacing of a grid: sample-offset span divided by beat-index
span (spec §4.2, "the existing beat spacing"). -/
def samples_per_beat (g : TrackBeatGrid) : ℚ :=
  (g.last_beat_sample_offset - g.first_beat_sample_offset) /
    ((g.last_beat_index - g.first_beat_index : Int) : ℚ)

/-- The sample offset of beat index -4 under the grid's beat spacing, by
linear interpolation from the first anchor. -/
def norm_first_offset (g : TrackBeatGrid) : ℚ :=
  g.first_beat_sample_offset +
    ((-4 - g.first_beat_index : Int) : ℚ) * samples_per_beat g

/-- The index, relative to the normalised first anchor, of the first beat
past the usable track end (`last_sample`); at least 1 since the two anchors
of a grid are distinct beats. -/
def norm_last_rel (g : TrackBeatGrid) (last_sample : ℚ) : Int :=
  max 1 (⌊(last_sample - norm_first_offset g) / samples_per_beat g⌋ + 1)

/-- Modelled from the spec: the implementation of `normalise_beat_grid` is
absent from the sources (performance_data.hpp lines 594-604 only declare it).
Per spec §4.2 and the declaration's comment, it moves the first anchor to the
canonical index -4 and the last anchor to the first beat past the usable
track end (`last_sample`), recomputing both sample offsets by linear
interpolation along the existing beat spacing. -/
def normalise_beat_grid (g : TrackBeatGrid) (last_sample : ℚ) : TrackBeatGrid :=
  ⟨-4, norm_first_offset g, -4 + norm_last_rel g last_sample,
    norm_first_offset g + (norm_last_rel g last_sample : ℚ) * samples_per_beat g⟩

/-- `performance_data::set_hot_cues` — modelled from the spec: the
implementation is absent from the sources (performance_data.hpp lines 560-568
declare it and state the truncation rule); per spec §3 the stored record has
exactly 8 slots, excess input is truncated and absent input leaves slots in
the default unset state. -/
def set_hot_cues_slots (input : List TrackHotCuePoint) : List TrackHotCuePoint :=
  input.take 8 ++ List.replicate (8 - (input.take 8).length) defaultHotCue

/-- `performance_data::set_loops` — modelled from the spec, as for
`set_hot_cues_slots` (declaration at performance_data.hpp lines 574-582). -/
def set_loops_slots (input : List TrackLoop) : List TrackLoop :=
  input.take 8 ++ List.replicate (8 - (input.take 8).length) defaultLoop

/-- The `set_hot_cues` method on the aggregate. -/
def PerformanceData.set_hot_cues (pd : PerformanceData)
    (input : List TrackHotCuePoint) : PerformanceData :=
  { pd with hot_cues := set_hot_cues_slots input }

/-- The `set_loops` method on the aggregate. -/
def PerformanceData.set_loops (pd : PerformanceData)
    (input : List TrackLoop) : PerformanceData :=
  { pd with loops := set_loops_slots input }

/-- For nonzero `a` and `b`, `x * a / (a * c) = x * b / (b * c)` (both sides
are `x / c`, also when `c = 0`). -/
lemma mul_div_mul_cancel_aux (x a b c : ℚ) (ha : a ≠ 0) (hb : b ≠ 0) :
    x * a / (a * c) = x * b / (b * c) := by
  rw [mul_comm x a, mul_comm x b, mul_div_mul_left _ _ ha, mul_div_mul_left _ _ hb]

end Djinterop

namespace Djinterop

/-- C4: `performance_data::bpm` computes
`sample_rate * 60 * (last_beat_index - first_beat_index) /
(last_beat_sample_offset - first_beat_sample_offset)` over the adjusted beat
grid, and returns exactly 0 when the beat-index span is 0. -/
theorem performance_data_bpm_formula (pd : PerformanceData) :
    pd.bpm = bpm_spec pd ∧
    (pd.adjusted_beat_grid.last_beat_index -
        pd.adjusted_beat_grid.first_beat_index = 0 → pd.bpm = 0) ∧
    (pd.adjusted_beat_grid.last_beat_index -
        pd.adjusted_beat_grid.first_beat_index ≠ 0 →
      pd.bpm = pd.sample_rate * 60 *
        ((pd.adjusted_beat_grid.last_beat_index -
          pd.adjusted_beat_grid.first_beat_index : Int) : ℚ) /
        (pd.adjusted_beat_grid.last_beat_sample_offset -
         pd.adjusted_beat_grid.first_beat_sample_offset)) :=
  ⟨rfl,
   fun h => by simp [PerformanceData.bpm, h],
   fun h => by simp [PerformanceData.bpm, h]⟩

/-- Witness for C4: a concrete record with zero index span has BPM exactly 0,
and the worked example from the repository README (sample rate 44100, grid
(-4, -83316.78, 812, 17470734.439)) follows the formula. -/
theorem performance_data_bpm_formula_witness :
    (PerformanceData.bpm
      ⟨1, 44100, 16140600, 1/2, ⟨0, 0, 0, 0⟩, ⟨0, 0, 0, 0⟩, [], []⟩) = 0 ∧
    (PerformanceData.bpm
      ⟨1, 44100, 16140600, 1/2, ⟨0, 0, 0, 0⟩,
        ⟨-4, -8331678/100, 812, 17470734439/1000⟩, [], []⟩) =
      44100 * 60 * ((812 - (-4) : Int) : ℚ) /
        (17470734439/1000 - (-8331678/100)) :=
  ⟨(performance_data_bpm_formula _).2.1 rfl,
   (performance_data_bpm_formula _).2.2 (by decide)⟩

/-- C5: `normalise_beat_grid` (on any grid with non-zero beat-index span, for
every `last_sample`) is idempotent and preserves the BPM implied by the grid
at every sample rate. -/
theorem normalise_beat_grid_idem_and_bpm (g : TrackBeatGrid) (ls : ℚ)
    (h : g.last_beat_index - g.first_beat_index ≠ 0) :
    normalise_beat_grid (normalise_beat_grid g ls) ls =
      normalise_beat_grid g ls ∧
    ∀ sr : ℚ, grid_bpm sr (normalise_beat_grid g ls) = grid_bpm sr g := by
  have hn : 1 ≤ norm_last_rel g ls := le_max_left _ _
  have hnz : norm_last_rel g ls ≠ 0 := by omega
  have hnQ : ((norm_last_rel g ls : Int) : ℚ) ≠ 0 := Int.cast_ne_zero.mpr hnz
  have hsQ : ((g.last_beat_index - g.first_beat_index : Int) : ℚ) ≠ 0 :=
    Int.cast_ne_zero.mpr h
  have hspan' : (normalise_beat_grid g ls).last_beat_index -
      (normalise_beat_grid g ls).first_beat_index = norm_last_rel g ls := by
    simp [normalise_beat_grid]
  have hoffspan' : (normalise_beat_grid g ls).last_beat_sample_offset -
      (normalise_beat_grid g ls).first_beat_sample_offset =
      ((norm_last_rel g ls : Int) : ℚ) * samples_per_beat g := by
    simp [normalise_beat_grid]
  have hspb : samples_per_beat (normalise_beat_grid g ls) =
      samples_per_beat g := by
    unfold samples_per_beat
    rw [hspan', hoffspan']
    exact mul_div_cancel_left₀ _ hnQ
  have hfoff : norm_first_offset (normalise_beat_grid g ls) =
      norm_first_offset g := by
    have h4 : (normalise_beat_grid g ls).first_beat_index = -4 := rfl
    have h4o : (normalise_beat_grid g ls).first_beat_sample_offset =
        norm_first_offset g := rfl
    show (normalise_beat_grid g ls).first_beat_sample_offset +
        ((-4 - (normalise_beat_grid g ls).first_beat_index : Int) : ℚ) *
          samples_per_beat (normalise_beat_grid g ls) = norm_first_offset g
    rw [h4, h4o]
    norm_num
  have hrel : norm_last_rel (normalise_beat_grid g ls) ls =
      norm_last_rel g ls := by
    unfold norm_last_rel
    rw [hfoff, hspb]
  constructor
  · calc normalise_beat_grid (normalise_beat_grid g ls) ls
        = ⟨-4, norm_first_offset (normalise_beat_grid g ls),
            -4 + norm_last_rel (normalise_beat_grid g ls) ls,
            norm_first_offset (normalise_beat_grid g ls) +
              (norm_last_rel (normalise_beat_grid g ls) ls : ℚ) *
                samples_per_beat (normalise_beat_grid g ls)⟩ := rfl
      _ = normalise_beat_grid g ls := by rw [hfoff, hrel, hspb]; rfl
  · intro sr
    have hoffg : g.last_beat_sample_offset - g.first_beat_sample_offset =
        ((g.last_beat_index - g.first_beat_index : Int) : ℚ) *
          samples_per_beat g := by
      unfold samples_per_beat
      rw [mul_comm, div_mul_cancel₀ _ hsQ]
    unfold grid_bpm
    rw [hspan', hoffspan', hoffg, if_neg hnz, if_neg h]
    exact mul_div_mul_cancel_aux _ _ _ _ hnQ hsQ

/-- Witness for C5: idempotence and BPM preservation at the concrete grid
(0, 0, 4, 400) with `last_sample = 1000` and sample rate 44100. -/
theorem normalise_beat_grid_idem_and_bpm_witness :
    normalise_beat_grid (normalise_beat_grid ⟨0, 0, 4, 400⟩ 1000) 1000 =
      normalise_beat_grid ⟨0, 0, 4, 400⟩ 1000 ∧
    grid_bpm 44100 (normalise_beat_grid ⟨0, 0, 4, 400⟩ 1000) =
      grid_bpm 44100 ⟨0, 0, 4, 400⟩ :=
  ⟨(normalise_beat_grid_idem_and_bpm ⟨0, 0, 4, 400⟩ 1000 (by decide)).1,
   (normalise_beat_grid_idem_and_bpm ⟨0, 0, 4, 400⟩ 1000 (by decide)).2 44100⟩

/-- C7: after `set_hot_cues` (resp. `set_loops`) the stored record has
exactly 8 slots: the first `min 8 n` slots are the first 8 supplied entries,
and every slot past the supplied entries is the default unset slot (hot cues:
`is_set = false`; loops: both flags false). -/
theorem slots_fixed_at_eight (pd : PerformanceData)
    (cues : List TrackHotCuePoint) (ls : List TrackLoop) :
    (pd.set_hot_cues cues).hot_cues.length = 8 ∧
    (pd.set_hot_cues cues).hot_cues.take (min 8 cues.length) = cues.take 8 ∧
    (∀ c ∈ (pd.set_hot_cues cues).hot_cues.drop (min 8 cues.length),
      c = defaultHotCue ∧ c.is_set = false) ∧
    (pd.set_loops ls).loops.length = 8 ∧
    (pd.set_loops ls).loops.take (min 8 ls.length) = ls.take 8 ∧
    (∀ l ∈ (pd.set_loops ls).loops.drop (min 8 ls.length),
      l = defaultLoop ∧ l.is_start_set = false ∧ l.is_end_set = false) := by
  have hc8 : (cues.take 8).length = min 8 cues.length := List.length_take 8 cues
  have hl8 : (ls.take 8).length = min 8 ls.length := List.length_take 8 ls
  refine ⟨?_, ?_, ?_, ?_, ?_, ?_⟩
  · simp [PerformanceData.set_hot_cues, set_hot_cues_slots]
  · show (set_hot_cues_slots cues).take (min 8 cues.length) = cues.take 8
    unfold set_hot_cues_slots
    rw [← hc8, List.take_left]
  · intro c hc
    have : c ∈ List.replicate (8 - (cues.take 8).length) defaultHotCue := by
      have hd : (set_hot_cues_slots cues).drop (min 8 cues.length) =
          List.replicate (8 - (cues.take 8).length) defaultHotCue := by
        unfold set_hot_cues_slots
        rw [← hc8, List.drop_left]
      rw [← hd]
      exact hc
    have := List.eq_of_mem_replicate this
    exact ⟨this, by rw [this]; rfl⟩
  · simp [PerformanceData.set_loops, set_loops_slots]
  · show (set_loops_slots ls).take (min 8 ls.length) = ls.take 8
    unfold set_loops_slots
    rw [← hl8, List.take_left]
  · intro l hl
    have : l ∈ List.replicate (8 - (ls.take 8).length) defaultLoop := by
      have hd : (set_loops_slots ls).drop (min 8 ls.length) =
          List.replicate (8 - (ls.take 8).length) defaultLoop := by
        unfold set_loops_slots
        rw [← hl8, List.drop_left]
      rw [← hd]
      exact hl
    have := List.eq_of_mem_replicate this
    exact ⟨this, by rw [this]; rfl, by rw [this]; rfl⟩

/-- Witness for C7: supplying 3 hot cues yields 8 slots whose fourth slot is
the unset default, and supplying 10 loops keeps exactly the first 8. -/
theorem slots_fixed_at_eight_witness :
    ((PerformanceData.set_hot_cues
      ⟨1, 44100, 0, 0, ⟨0, 0, 0, 0⟩, ⟨0, 0, 0, 0⟩, [], []⟩
      (List.replicate 3 ⟨true, "c", 5, defaultPadColour⟩)).hot_cues.length = 8) ∧
    (defaultHotCue.is_set = false) ∧
    ((PerformanceData.set_loops
      ⟨1, 44100, 0, 0, ⟨0, 0, 0, 0⟩, ⟨0, 0, 0, 0⟩, [], []⟩
      (List.replicate 10 defaultLoop)).loops.take (min 8 10) =
      (List.replicate 10 defaultLoop).take 8) :=
  ⟨(slots_fixed_at_eight ⟨1, 44100, 0, 0, ⟨0, 0, 0, 0⟩, ⟨0, 0, 0, 0⟩, [], []⟩
      (List.replicate 3 ⟨true, "c", 5, defaultPadColour⟩)
      (List.replicate 10 defaultLoop)).1,
   ((slots_fixed_at_eight ⟨1, 44100, 0, 0, ⟨0, 0, 0, 0⟩, ⟨0, 0, 0, 0⟩, [], []⟩
      (List.replicate 3 ⟨true, "c", 5, defaultPadColour⟩)
      (List.replicate 10 defaultLoop)).2.2.1 defaultHotCue (by decide)).2,
   (slots_fixed_at_eight ⟨1, 44100, 0, 0, ⟨0, 0, 0, 0⟩, ⟨0, 0, 0, 0⟩, [], []⟩
      (List.replicate 3 ⟨true, "c", 5, defaultPadColour⟩)
      (List.replicate 10 defaultLoop)).2.2.2.2.1⟩

end Djinterop

namespace Djinterop

/-!
Crate hierarchy (claim C6).  Modelled from the spec: the crate sources
(`el_crate_impl.cpp` / `crate.cpp`) are absent from src/ (the CMake file
lists them; `include/djinterop/database.hpp` only declares the crate API).
Per spec §3 and §4.4, each crate has at most one parent (nullable);
`set_parent(other)` walks the ancestor chain of the proposed parent and
rejects with `CycleDetected` if `self`'s id appears in it or `other` is
`self`, leaving the hierarchy unchanged; otherwise it reparents `self`.
-/

/-- Crate ids are store-assigned integers. -/
abbrev CrateId := Nat

/-- A crate hierarchy: each crate id with its nullable parent id. -/
abbrev Hierarchy := List (CrateId × Option CrateId)

/-- The ids of the crates of a hierarchy. -/
def keysOf (h : Hierarchy) : List CrateId := h.map Prod.fst

/-- The parent of a crate (none for a root crate or an unknown id). -/
def parentOf (h : Hierarchy) (c : CrateId) : Option CrateId :=
  match h.find? (fun e => e.1 == c) with
  | some e => e.2
  | none => none

/-- `j`-fold application of a parent map. -/
def iterParent (f : CrateId → Option CrateId) : Nat → CrateId → Option CrateId
  | 0, c => some c
  | j + 1, c =>
    match f c with
    | some p => iterParent f j p
    | none => none

/-- The ancestor chain walked by cycle detection: parent, grandparent, …,
cut off at `fuel` steps. -/
def ancestorChain (f : CrateId → Option CrateId) :
    Nat → CrateId → List CrateId
  | 0, _ => []
  | fuel + 1, c =>
    match f c with
    | some p => p :: ancestorChain f fuel p
    | none => []

/-- Reparent `self` to `other` in the stored relation. -/
def updateH (h : Hierarchy) (self other : CrateId) : Hierarchy :=
  h.map (fun e => if e.1 == self then (e.1, some other) else e)

/-- The pointwise effect of `updateH` on the parent map. -/
def updF (f : CrateId → Option CrateId) (self other : CrateId) :
    CrateId → Option CrateId :=
  fun c => if c = self then some other else f c

/-- `crate::set_parent` — modelled from the spec (§4.4): walk the ancestor
chain of the proposed parent `other` and reject with `CycleDetected` if
`self` appears in it or `other` is `self`; a rejected call leaves the
hierarchy unchanged, an accepted one reparents `self`. -/
def set_parent (h : Hierarchy) (self other : CrateId) :
    Except DbError Unit × Hierarchy :=
  if self == other ||
      (ancestorChain (parentOf h) h.length other).contains self then
    (Except.error DbError.cycleDetected, h)
  else
    (Except.ok (), updateH h self other)

/-- Well-formed hierarchy: crate ids are unique and every stored parent id
is a crate of the hierarchy.  (For a root, `e.2.getD e.1 = e.1`, which is a
key by membership.) -/
def WFH (h : Hierarchy) : Prop :=
  (keysOf h).Nodup ∧ ∀ e ∈ h, e.2.getD e.1 ∈ keysOf h

/-- The forest invariant, as checked on the stored hierarchy: no crate
appears in its own ancestor chain. -/
def AcyclicH (h : Hierarchy) : Prop :=
  ∀ c ∈ keysOf h, c ∉ ancestorChain (parentOf h) h.length c

/-- The forest invariant on a parent map, stated over all chain lengths. -/
def NoCycle (f : CrateId → Option CrateId) : Prop :=
  ∀ c j, 1 ≤ j → iterParent f j c ≠ some c

lemma iter_succ_right (f : CrateId → Option CrateId) (m : Nat) (x : CrateId) :
    iterParent f (m + 1) x = (iterParent f m x).bind f := by
  induction m generalizing x with
  | zero =>
    simp only [iterParent, Option.some_bind]
    cases f x <;> rfl
  | succ m ih =>
    show iterParent f (m + 1 + 1) x = _
    rw [show m + 1 + 1 = (m + 1) + 1 from rfl]
    cases hfx : f x with
    | none => simp [iterParent, hfx]
    | some p =>
      have h1 : iterParent f (m + 1 + 1) x = iterParent f (m + 1) p := by
        simp [iterParent, hfx]
      have h2 : iterParent f (m + 1) x = iterParent f m p := by
        simp [iterParent, hfx]
      rw [h1, h2, ih]

lemma iter_add (f : CrateId → Option CrateId) (a b : Nat) (x : CrateId) :
    iterParent f (a + b) x = (iterParent f a x).bind (iterParent f b) := by
  induction a generalizing x with
  | zero => simp [iterParent]
  | succ a ih =>
    rw [Nat.succ_add]
    cases hfx : f x with
    | none => simp [iterParent, hfx]
    | some p =>
      have h1 : iterParent f (a + b + 1) x = iterParent f (a + b) p := by
        simp [iterParent, hfx]
      have h2 : iterParent f (a + 1) x = iterParent f a p := by
        simp [iterParent, hfx]
      rw [h1, h2, ih]

lemma iter_none_le (f : CrateId → Option CrateId) (i j : Nat) (x : CrateId)
    (hij : i ≤ j) (hn : iterParent f i x = none) : iterParent f j x = none := by
  have : j = i + (j - i) := by omega
  rw [this, iter_add, hn]
  rfl

lemma mem_ancestorChain (f : CrateId → Option CrateId) (fuel : Nat)
    (x y : CrateId) :
    y ∈ ancestorChain f fuel x ↔
      ∃ j, 1 ≤ j ∧ j ≤ fuel ∧ iterParent f j x = some y := by
  induction fuel generalizing x with
  | zero =>
    simp only [ancestorChain, List.not_mem_nil, false_iff]
    rintro ⟨j, hj1, hj0, _⟩
    omega
  | succ fuel ih =>
    cases hfx : f x with
    | none =>
      simp only [ancestorChain, hfx, List.not_mem_nil, false_iff]
      rintro ⟨j, hj1, _, hit⟩
      obtain ⟨jj, rfl⟩ : ∃ jj, j = jj + 1 := ⟨j - 1, by omega⟩
      simp [iterParent, hfx] at hit
    | some p =>
      simp only [ancestorChain, hfx, List.mem_cons]
      constructor
      · rintro (rfl | hmem)
        · exact ⟨1, le_refl 1, by omega, by simp [iterParent, hfx]⟩
        · obtain ⟨j, hj1, hjf, hit⟩ := (ih p).mp hmem
          exact ⟨j + 1, by omega, by omega, by simp [iterParent, hfx]; exact hit⟩
      · rintro ⟨j, hj1, hjf, hit⟩
        obtain ⟨jj, rfl⟩ : ∃ jj, j = jj + 1 := ⟨j - 1, by omega⟩
        have hit' : iterParent f jj p = some y := by
          simp [iterParent, hfx] at hit
          exact hit
        cases jj with
        | zero =>
          left
          simpa [iterParent] using hit'.symm
        | succ jj =>
          right
          exact (ih p).mpr ⟨jj + 1, by omega, by omega, hit'⟩

lemma parentOf_eq_some (h : Hierarchy) (x y : CrateId)
    (hp : parentOf h x = some y) : ∃ e ∈ h, e.1 = x ∧ e.2 = some y := by
  unfold parentOf at hp
  cases hfind : h.find? (fun e => e.1 == x) with
  | none => rw [hfind] at hp; exact absurd hp (by simp)
  | some e =>
    rw [hfind] at hp
    refine ⟨e, List.mem_of_find?_eq_some hfind, ?_, hp⟩
    have := List.find?_some hfind
    exact eq_of_beq this

lemma parent_mem_keys (h : Hierarchy) (hWF : WFH h) (x y : CrateId)
    (hp : parentOf h x = some y) : y ∈ keysOf h := by
  obtain ⟨e, hmem, _, he2⟩ := parentOf_eq_some h x y hp
  have := hWF.2 e hmem
  rw [he2] at this
  simpa using this

lemma iter_last_step (f : CrateId → Option CrateId) (j : Nat) (x y : CrateId)
    (hj : 1 ≤ j) (hit : iterParent f j x = some y) : ∃ z, f z = some y := by
  obtain ⟨jj, rfl⟩ : ∃ jj, j = jj + 1 := ⟨j - 1, by omega⟩
  clear hj
  induction jj generalizing x with
  | zero =>
    cases hfx : f x with
    | none => simp [iterParent, hfx] at hit
    | some p =>
      simp [iterParent, hfx] at hit
      exact ⟨x, by rw [hfx, hit]⟩
  | succ jj ih =>
    cases hfx : f x with
    | none => simp [iterParent, hfx] at hit
    | some p =>
      have : iterParent f (jj + 1) p = some y := by
        simpa [iterParent, hfx] using hit
      exact ih p this

lemma iter_dup (f : CrateId → Option CrateId) (ks : List CrateId)
    (hval : ∀ x y, f x = some y → y ∈ ks) (x : CrateId)
    (hsm : iterParent f (ks.length + 1) x ≠ none) :
    ∃ i1 i2, 1 ≤ i1 ∧ i1 < i2 ∧ i2 ≤ ks.length + 1 ∧
      iterParent f i1 x = iterParent f i2 x := by
  classical
  have hsome : ∀ i : Nat, i ≤ ks.length + 1 → iterParent f i x ≠ none :=
    fun i hi hn => hsm (iter_none_le f i (ks.length + 1) x hi hn)
  have hmaps : ∀ i : Fin (ks.length + 1), True →
      (iterParent f (i.1 + 1) x).getD 0 ∈ ks.toFinset := by
    intro i _
    obtain ⟨v, hv⟩ := Option.ne_none_iff_exists'.mp (hsome (i.1 + 1) (by omega))
    rw [hv]
    simp only [Option.getD_some, List.mem_toFinset]
    obtain ⟨z, hz⟩ := iter_last_step f (i.1 + 1) x v (by omega) hv
    exact hval z v hz
  have hcard : ks.toFinset.card < (Finset.univ : Finset (Fin (ks.length + 1))).card := by
    have h1 : ks.toFinset.card ≤ ks.length := ks.toFinset_card_le
    simp only [Finset.card_univ, Fintype.card_fin]
    omega
  obtain ⟨a, _, b, _, hab, hFab⟩ :=
    Finset.exists_ne_map_eq_of_card_lt_of_maps_to hcard
      (fun i hi => hmaps i trivial)
  obtain ⟨va, hva⟩ := Option.ne_none_iff_exists'.mp (hsome (a.1 + 1) (by omega))
  obtain ⟨vb, hvb⟩ := Option.ne_none_iff_exists'.mp (hsome (b.1 + 1) (by omega))
  have heq : va = vb := by
    have h1 := hFab
    rw [hva, hvb] at h1
    simpa using h1
  rcases Nat.lt_or_ge a.1 b.1 with hlt | hge
  · exact ⟨a.1 + 1, b.1 + 1, by omega, by omega, by omega,
      by rw [hva, hvb, heq]⟩
  · have hba : b.1 < a.1 := by
      rcases Nat.lt_or_ge b.1 a.1 with hl | hg
      · exact hl
      · exact absurd (Fin.ext (by omega)) hab
    exact ⟨b.1 + 1, a.1 + 1, by omega, by omega, by omega,
      by rw [hva, hvb, heq]⟩

lemma reach_le_card (f : CrateId → Option CrateId) (ks : List CrateId)
    (hval : ∀ x y, f x = some y → y ∈ ks) (x y : CrateId)
    (hreach : ∃ j, 1 ≤ j ∧ iterParent f j x = some y) :
    ∃ j, 1 ≤ j ∧ j ≤ ks.length ∧ iterParent f j x = some y := by
  classical
  have hP : ∃ j, 1 ≤ j ∧ iterParent f j x = some y := hreach
  set j0 := Nat.find hP with hj0def
  have hj0 : 1 ≤ j0 ∧ iterParent f j0 x = some y := Nat.find_spec hP
  by_cases hle : j0 ≤ ks.length
  · exact ⟨j0, hj0.1, hle, hj0.2⟩
  · exfalso
    have hgt : ks.length + 1 ≤ j0 := by omega
    have h1 : iterParent f (ks.length + 1) x ≠ none := by
      intro hn
      rw [iter_none_le f (ks.length + 1) j0 x hgt hn] at hj0
      exact absurd hj0.2 (by simp)
    obtain ⟨i1, i2, hi1, hlt, hi2, heq⟩ := iter_dup f ks hval x h1
    have hsplit : iterParent f (i2 + (j0 - i2)) x = some y := by
      rw [show i2 + (j0 - i2) = j0 by omega]
      exact hj0.2
    rw [iter_add, ← heq, ← iter_add] at hsplit
    have hless : i1 + (j0 - i2) < j0 := by omega
    exact Nat.find_min hP hless ⟨by omega, hsplit⟩

lemma keysOf_updateH (h : Hierarchy) (s o : CrateId) :
    keysOf (updateH h s o) = keysOf h := by
  unfold keysOf updateH
  rw [List.map_map]
  apply List.map_congr_left
  intro e _
  by_cases he : e.1 = s <;> simp [he]

lemma length_updateH (h : Hierarchy) (s o : CrateId) :
    (updateH h s o).length = h.length := List.length_map h _

lemma parentOf_cons (a : CrateId) (b : Option CrateId) (t : Hierarchy)
    (c : CrateId) :
    parentOf ((a, b) :: t) c = if a = c then b else parentOf t c := by
  unfold parentOf
  by_cases hac : a = c
  · rw [List.find?_cons_of_pos _ (by simpa using hac), if_pos hac]
  · rw [List.find?_cons_of_neg _ (by simpa using hac), if_neg hac]

lemma updateH_cons (a : CrateId) (b : Option CrateId) (t : Hierarchy)
    (s o : CrateId) :
    updateH ((a, b) :: t) s o =
      (if a = s then (a, some o) else (a, b)) :: updateH t s o := by
  unfold updateH
  rw [List.map_cons]
  by_cases has : a = s <;> simp [has]

lemma parentOf_updateH_ne (h : Hierarchy) (s o c : CrateId) (hc : c ≠ s) :
    parentOf (updateH h s o) c = parentOf h c := by
  induction h with
  | nil => rfl
  | cons e t ih =>
    obtain ⟨a, b⟩ := e
    rw [updateH_cons]
    by_cases has : a = s
    · rw [if_pos has, parentOf_cons, parentOf_cons]
      have hne : ¬ a = c := fun hq => hc ((hq ▸ has : c = s))
      rw [if_neg hne, if_neg hne]
      exact ih
    · rw [if_neg has, parentOf_cons, parentOf_cons]
      by_cases hac : a = c
      · rw [if_pos hac, if_pos hac]
      · rw [if_neg hac, if_neg hac]
        exact ih

lemma parentOf_updateH_self (h : Hierarchy) (s o : CrateId)
    (hs : s ∈ keysOf h) : parentOf (updateH h s o) s = some o := by
  induction h with
  | nil => simp [keysOf] at hs
  | cons e t ih =>
    obtain ⟨a, b⟩ := e
    rw [updateH_cons]
    by_cases has : a = s
    · rw [if_pos has, parentOf_cons, if_pos has]
    · rw [if_neg has, parentOf_cons, if_neg has]
      apply ih
      have hmem : s ∈ a :: keysOf t := hs
      rcases List.mem_cons.mp hmem with h1 | h2
      · exact absurd h1.symm has
      · exact h2

lemma parentOf_updateH (h : Hierarchy) (s o : CrateId) (hs : s ∈ keysOf h) :
    parentOf (updateH h s o) = updF (parentOf h) s o := by
  funext c
  unfold updF
  by_cases hc : c = s
  · rw [hc, if_pos rfl]
    exact parentOf_updateH_self h s o hs
  · rw [if_neg hc]
    exact parentOf_updateH_ne h s o c hc

lemma iter_updF_eq (f : CrateId → Option CrateId) (s o : CrateId) (m : Nat)
    (x : CrateId)
    (hno : ∀ i < m, iterParent (updF f s o) i x ≠ some s) :
    iterParent (updF f s o) m x = iterParent f m x := by
  induction m generalizing x with
  | zero => rfl
  | succ m ih =>
    rw [iter_succ_right, iter_succ_right]
    have hm : iterParent (updF f s o) m x = iterParent f m x :=
      ih x (fun i hi => hno i (by omega))
    rw [hm]
    cases hv : iterParent f m x with
    | none => rfl
    | some d =>
      have hd : d ≠ s := by
        intro hd
        apply hno m (by omega)
        rw [hm, hv, hd]
      simp [updF, hd]

lemma noCycle_updF (f : CrateId → Option CrateId) (s o : CrateId)
    (hacy : NoCycle f)
    (hno : ∀ j, 1 ≤ j → iterParent f j o ≠ some s)
    (hne : o ≠ s) : NoCycle (updF f s o) := by
  intro c j hj hcyc
  by_cases hvisit : ∃ i, i < j ∧ iterParent (updF f s o) i c = some s
  · obtain ⟨i, hij, hi⟩ := hvisit
    have hcs : iterParent (updF f s o) j s = some s := by
      have h1 : iterParent (updF f s o) (i + (j - i)) c = some c := by
        rw [show i + (j - i) = j by omega]
        exact hcyc
      rw [iter_add, hi] at h1
      have h2 : iterParent (updF f s o) ((j - i) + i) s = some s := by
        rw [iter_add]
        have h3 : iterParent (updF f s o) (j - i) s = some c := by
          simpa using h1
        rw [h3]
        simpa using hi
      rw [show (j - i) + i = j by omega] at h2
      exact h2
    have hstep : iterParent (updF f s o) (j - 1) o = some s := by
      have h4 : iterParent (updF f s o) (1 + (j - 1)) s = some s := by
        rw [show 1 + (j - 1) = j by omega]
        exact hcs
      rw [iter_add] at h4
      have h5 : iterParent (updF f s o) 1 s = some o := by
        simp [iterParent, updF]
      rw [h5] at h4
      simpa using h4
    have hj1 : 1 ≤ j - 1 := by
      rcases Nat.eq_zero_or_pos (j - 1) with h0 | h1
      · rw [h0] at hstep
        simp only [iterParent, Option.some_inj] at hstep
        exact absurd hstep hne
      · exact h1
    have hPex : ∃ i, iterParent (updF f s o) i o = some s := ⟨j - 1, hstep⟩
    have hi0 : iterParent (updF f s o) (Nat.find hPex) o = some s :=
      Nat.find_spec hPex
    have hi0min : ∀ i < Nat.find hPex,
        iterParent (updF f s o) i o ≠ some s :=
      fun i hi => Nat.find_min hPex hi
    have hi0pos : 1 ≤ Nat.find hPex := by
      rcases Nat.eq_zero_or_pos (Nat.find hPex) with h0 | h1
      · rw [h0] at hi0
        simp only [iterParent, Option.some_inj] at hi0
        exact absurd hi0 hne
      · exact h1
    have heqf : iterParent (updF f s o) (Nat.find hPex) o =
        iterParent f (Nat.find hPex) o :=
      iter_updF_eq f s o (Nat.find hPex) o hi0min
    exact hno (Nat.find hPex) hi0pos (heqf ▸ hi0)
  · have heqf : iterParent (updF f s o) j c = iterParent f j c :=
      iter_updF_eq f s o j c
        (fun i hi hs => hvisit ⟨i, hi, hs⟩)
    exact hacy c j hj (heqf ▸ hcyc)

lemma noCycle_of_acyclicH (h : Hierarchy) (hWF : WFH h) (hA : AcyclicH h) :
    NoCycle (parentOf h) := by
  intro c j hj hit
  have hkeys : c ∈ keysOf h := by
    obtain ⟨z, hz⟩ := iter_last_step (parentOf h) j c c hj hit
    exact parent_mem_keys h hWF z c hz
  obtain ⟨j', hj'1, hj'le, hit'⟩ := reach_le_card (parentOf h) (keysOf h)
    (fun x y => parent_mem_keys h hWF x y) c c ⟨j, hj, hit⟩
  have hlen : (keysOf h).length = h.length := List.length_map _ _
  have hmem : c ∈ ancestorChain (parentOf h) h.length c :=
    (mem_ancestorChain _ _ _ _).mpr ⟨j', hj'1, by omega, hit'⟩
  exact hA c hkeys hmem

lemma acyclicH_of_noCycle (h : Hierarchy) (hN : NoCycle (parentOf h)) :
    AcyclicH h := by
  intro c _ hmem
  obtain ⟨j, hj1, _, hit⟩ := (mem_ancestorChain _ _ _ _).mp hmem
  exact hN c j hj1 hit

end Djinterop

namespace Djinterop

/-- C6: on a well-formed acyclic hierarchy, `set_parent` rejects with
`CycleDetected` — leaving the hierarchy unchanged — whenever the proposed
parent is the crate itself or one of its descendants (i.e. the crate appears
in the proposed parent's ancestor chain), and the resulting hierarchy is
always still a forest (no crate is its own ancestor). -/
theorem crate_set_parent_forest (h : Hierarchy) (self other : CrateId)
    (hWF : WFH h) (hA : AcyclicH h) (hself : self ∈ keysOf h) :
    ((other = self ∨
        ∃ j, 1 ≤ j ∧ iterParent (parentOf h) j other = some self) →
      set_parent h self other = (Except.error DbError.cycleDetected, h)) ∧
    AcyclicH (set_parent h self other).2 := by
  have hlen : (keysOf h).length = h.length := List.length_map _ _
  constructor
  · rintro (rfl | ⟨j, hj1, hit⟩)
    · unfold set_parent
      rw [if_pos (by simp)]
    · obtain ⟨j', hj'1, hj'le, hit'⟩ := reach_le_card (parentOf h) (keysOf h)
        (fun x y => parent_mem_keys h hWF x y) other self ⟨j, hj1, hit⟩
      have hmem : self ∈ ancestorChain (parentOf h) h.length other :=
        (mem_ancestorChain _ _ _ _).mpr ⟨j', hj'1, by omega, hit'⟩
      have hcontains :
          ((ancestorChain (parentOf h) h.length other).contains self) = true := by
        simpa using hmem
      unfold set_parent
      rw [if_pos (by simp; exact Or.inr hmem)]
  · by_cases hcond : (self == other ||
        (ancestorChain (parentOf h) h.length other).contains self) = true
    · unfold set_parent
      rw [if_pos hcond]
      exact hA
    · unfold set_parent
      rw [if_neg hcond]
      have hparts := Bool.or_eq_false_iff.mp (Bool.eq_false_iff.mpr hcond)
      have hne : other ≠ self := by
        intro hq
        rw [hq] at hparts
        simp at hparts
      have hnsc : self ∉ ancestorChain (parentOf h) h.length other := by
        intro hmem
        have hc : ((ancestorChain (parentOf h) h.length other).contains self)
            = true := by simpa using hmem
        rw [hc] at hparts
        simp at hparts
      have hno : ∀ j, 1 ≤ j →
          iterParent (parentOf h) j other ≠ some self := by
        intro j hj hit
        obtain ⟨j', hj'1, hj'le, hit'⟩ := reach_le_card (parentOf h) (keysOf h)
          (fun x y => parent_mem_keys h hWF x y) other self ⟨j, hj, hit⟩
        exact hnsc ((mem_ancestorChain _ _ _ _).mpr ⟨j', hj'1, by omega, hit'⟩)
      have hN' : NoCycle (updF (parentOf h) self other) :=
        noCycle_updF (parentOf h) self other
          (noCycle_of_acyclicH h hWF hA) hno hne
      apply acyclicH_of_noCycle
      rw [parentOf_updateH h self other hself]
      exact hN'

/-- Witness for C6: with crate 1 the parent of crate 2, attempting to set
crate 2 as the parent of crate 1 fails with `CycleDetected`, the hierarchy is
unchanged, and it is still a forest. -/
theorem crate_set_parent_forest_witness :
    set_parent [(1, none), (2, some 1)] 1 2 =
      (Except.error DbError.cycleDetected, [(1, none), (2, some 1)]) ∧
    AcyclicH (set_parent [(1, none), (2, some 1)] 1 2).2 :=
  ⟨(crate_set_parent_forest [(1, none), (2, some 1)] 1 2
      (by constructor
          · decide
          · decide)
      (by unfold AcyclicH; decide) (by decide)).1
      (Or.inr ⟨1, le_refl 1, by decide⟩),
   (crate_set_parent_forest [(1, none), (2, some 1)] 1 2
      (by constructor
          · decide
          · decide)
      (by unfold AcyclicH; decide) (by decide)).2⟩

end Djinterop

namespace Djinterop

/-- C3: The comparison operators on semantic versions implement the
lexicographic order on the (major, minor, patch) triple and form a total
order: `==` holds iff the components are pairwise equal, `!=` is its negation,
`<` is the lexicographic strict order, `>` its converse, `<=` holds iff `<` or
`==`, `>=` holds iff `>` or `==`, and for all `a`, `b` exactly one of
`a < b`, `a == b`, `a > b` holds. -/
theorem schema_version_total_order (a b : SchemaVersion) :
    (schema_version_eq a b = true ↔ a.maj = b.maj ∧ a.min = b.min ∧ a.pat = b.pat) ∧
    (schema_version_ne a b = true ↔ schema_version_eq a b = false) ∧
    (schema_version_lt a b = true ↔ lexLt a b) ∧
    (schema_version_gt a b = true ↔ lexLt b a) ∧
    (schema_version_le a b = true ↔
      schema_version_lt a b = true ∨ schema_version_eq a b = true) ∧
    (schema_version_ge a b = true ↔
      schema_version_gt a b = true ∨ schema_version_eq a b = true) ∧
    ((schema_version_lt a b = true ∧ schema_version_eq a b = false ∧
        schema_version_gt a b = false) ∨
     (schema_version_lt a b = false ∧ schema_version_eq a b = true ∧
        schema_version_gt a b = false) ∨
     (schema_version_lt a b = false ∧ schema_version_eq a b = false ∧
        schema_version_gt a b = true)) := by
  obtain ⟨a1, a2, a3⟩ := a
  obtain ⟨b1, b2, b3⟩ := b
  simp only [schema_version_eq, schema_version_ne, schema_version_lt,
    schema_version_gt, schema_version_le, schema_version_ge, lexLt]
  by_cases h1 : a1 = b1 <;> by_cases h2 : a2 = b2 <;> by_cases h3 : a3 = b3 <;>
    simp [h1, h2, h3] <;> omega

end Djinterop
